import Mathlib

/-!
Verification of the TradingWithPy indicator engine and three-screen signal
state machine.

The definitions below are a shallow embedding of the Python sources:

* `app/utils/indicators.py`  (class `IndicatorCalculator`)
* `app/strategies/strategies.py`  (class `ThreeScreenStrategy`)
* `app/strategies/strategy_manager.py`  (class `StrategyManager`)

Python floats are modelled as exact rationals (`ℚ`); the properties checked
here are arithmetic identities and control-flow facts that do not depend on
rounding.  Python `None` entries inside indicator output lists are modelled
with `Option ℚ`, and functions that can raise are modelled with `Except`.
-/

namespace TradingWithPy

/-- A candlestick as consumed by the engine; only `close` feeds indicator
math (`indicators.py`, `extract_closing_prices`). -/
structure Candlestick where
  time : ℤ
  open_price : ℚ
  high : ℚ
  low : ℚ
  close : ℚ
  volume : ℚ
deriving DecidableEq

/-- `IndicatorCalculator.extract_closing_prices`: project the `close` field,
preserving order. -/
def extract_closing_prices (candlesticks : List Candlestick) : List ℚ :=
  candlesticks.map (fun c => c.close)

/-- `IndicatorCalculator.calculate_sma`:
`[sum(closing_prices[i - period:i]) / period for i in range(period, len(closing_prices))]`.
The Python slice `closing_prices[i-period:i]` is `(drop (i - period)).take period`. -/
def calculate_sma (period : ℕ) (closing_prices : List ℚ) : List ℚ :=
  (List.range' period (closing_prices.length - period)).map
    (fun i => ((closing_prices.drop (i - period)).take period).sum / (period : ℚ))

/-- The loop of `IndicatorCalculator.calculate_ema`: starting from the last
value already in the list (`prev`), append
`(closing_prices[i] - ema[-1]) * multiplier + ema[-1]` for each remaining
price. -/
def emaLoop (multiplier : ℚ) : ℚ → List ℚ → List ℚ
  | _, [] => []
  | prev, x :: xs =>
      ((x - prev) * multiplier + prev) :: emaLoop multiplier ((x - prev) * multiplier + prev) xs

/-- `IndicatorCalculator.calculate_ema`: `period - 1` leading `None`s, then
`initial_sma = sum(closing_prices[:period]) / period`, then the recurrence of
`emaLoop` over the remaining prices `closing_prices[period:]`. -/
def calculate_ema (period : ℕ) (closing_prices : List ℚ) : List (Option ℚ) :=
  let multiplier : ℚ := 2 / ((period : ℚ) + 1)
  let initial_sma : ℚ := (closing_prices.take period).sum / (period : ℚ)
  List.replicate (period - 1) none ++
    some initial_sma :: (emaLoop multiplier initial_sma (closing_prices.drop period)).map some

/-- One entry of the `std_devs` list in
`IndicatorCalculator.calculate_bollinger_bands` (loop index `i >= period`):
population standard deviation of the window `closing_prices[i-period+1:i+1]`.
The float operation `variance ** 0.5` has no exact rational counterpart, so
the embedding takes the square-root operation as a parameter `sqrtFn`; no
claim below depends on the numeric value of a standard deviation. -/
def bbStdDev (sqrtFn : ℚ → ℚ) (period : ℕ) (closing_prices : List ℚ) (i : ℕ) : ℚ :=
  let window := (closing_prices.drop (i - period + 1)).take period
  let mean := window.sum / (period : ℚ)
  let variance := (window.map (fun x => (x - mean) ^ 2)).sum / (period : ℚ)
  sqrtFn variance

/-- `IndicatorCalculator.calculate_bollinger_bands`: raises (modelled as
`Except.error`) when `len(closing_prices) < period`, recomputes the SMA and
raises again when `len(sma) < period`, otherwise pairs each SMA entry with
the stddev of the trailing window (`std_devs` has the same length as `sma`,
so the index loop over `range(len(sma))` is a `zip`; the Python
`is not None` guard is vacuous because both lists hold numbers). -/
def calculate_bollinger_bands (sqrtFn : ℚ → ℚ) (period : ℕ) (std_dev_multiplier : ℚ)
    (closing_prices : List ℚ) : Except String (List ℚ × List ℚ) :=
  if closing_prices.length < period then
    Except.error "data length below the requested period"
  else
    let sma := calculate_sma period closing_prices
    if sma.length < period then
      Except.error "computed SMA is too short for the requested period"
    else
      let std_devs := ((List.range closing_prices.length).filter
          (fun i => decide (period ≤ i))).map (bbStdDev sqrtFn period closing_prices)
      let upper_band := (sma.zip std_devs).map (fun p => p.1 + std_dev_multiplier * p.2)
      let lower_band := (sma.zip std_devs).map (fun p => p.1 - std_dev_multiplier * p.2)
      Except.ok (upper_band, lower_band)

/-- The per-step change list of `IndicatorCalculator.calculate_rsi`:
`closing_prices[i] - closing_prices[i-1]` for `i` in `range(1, len)`. -/
def priceChanges (closing_prices : List ℚ) : List ℚ :=
  (closing_prices.zip (closing_prices.drop 1)).map (fun pr => pr.2 - pr.1)

/-- The RSI value appended at each step of `calculate_rsi`:
`100` when `avg_loss == 0`, else `100 - 100 / (1 + avg_gain / avg_loss)`. -/
def rsiValue (avg_gain avg_loss : ℚ) : ℚ :=
  if avg_loss = 0 then 100 else 100 - 100 / (1 + avg_gain / avg_loss)

/-- The Wilder-smoothing loop of `calculate_rsi` (loop indices
`period + 1 .. len - 1`), consuming the remaining (gain, loss) pairs while
updating the running averages. -/
def rsiSmooth (period : ℕ) : ℚ → ℚ → List (ℚ × ℚ) → List ℚ
  | _, _, [] => []
  | avg_gain, avg_loss, gl :: rest =>
      let ag := (avg_gain * ((period : ℚ) - 1) + gl.1) / (period : ℚ)
      let al := (avg_loss * ((period : ℚ) - 1) + gl.2) / (period : ℚ)
      rsiValue ag al :: rsiSmooth period ag al rest

/-- `IndicatorCalculator.calculate_rsi`: gains are `max(change, 0)`, losses
are `abs(min(change, 0))`; the seed averages use the first `period`
gains/losses; the output is `period` leading `None`s, the seeded RSI value,
then the Wilder-smoothed values (loop index `i` uses `gains[i-1]`, i.e. the
pairs from position `period` onward). -/
def calculate_rsi (period : ℕ) (closing_prices : List ℚ) : List (Option ℚ) :=
  let changes := priceChanges closing_prices
  let gains := changes.map (fun c => max c 0)
  let losses := changes.map (fun c => |min c 0|)
  let avg_gain := (gains.take period).sum / (period : ℚ)
  let avg_loss := (losses.take period).sum / (period : ℚ)
  List.replicate period none ++
    some (rsiValue avg_gain avg_loss) ::
      (rsiSmooth period avg_gain avg_loss ((gains.drop period).zip (losses.drop period))).map some

/-- `IndicatorCalculator.calculate_macd` as implemented: its body calls
`calculate_ema(closing_prices, short_period)`, i.e. it passes the price list
where `calculate_ema` expects the integer period (and the period where the
list is expected), so `[None] * (period - 1)` multiplies a list by an
integer after subtracting 1 from a list; it then applies `-` to two Python
lists.  Both operations raise `TypeError` for every input, so the function
is modelled as unconditionally failing. -/
def calculate_macd (closing_prices : List ℚ)
    (short_period long_period signal_period : ℕ) :
    Except String (List ℚ × List ℚ × List ℚ) :=
  Except.error "TypeError: calculate_ema was given the price list as its period"

/-- The three-valued signal / state of `ThreeScreenStrategy`
(Python strings `'neutral'`, `'buy'`, `'sell'`). -/
inductive Signal where
  | neutral : Signal
  | buy : Signal
  | sell : Signal
deriving DecidableEq

/-- The per-symbol state-transition rule of `ThreeScreenStrategy.execute`
(`strategies.py` lines 94-118): `new_state` starts as `prev_state` and the
nested conditionals may overwrite it. -/
def nextState (long_signal mid_signal short_signal prev_state : Signal) : Signal :=
  match long_signal with
  | Signal.buy =>
      if prev_state = Signal.buy then
        if mid_signal = Signal.sell ∧ short_signal = Signal.sell then Signal.sell
        else prev_state
      else
        if mid_signal = Signal.buy ∧ short_signal = Signal.buy then Signal.buy
        else prev_state
  | Signal.sell =>
      if prev_state = Signal.sell then
        if mid_signal = Signal.buy ∧ short_signal = Signal.buy then Signal.buy
        else prev_state
      else
        if mid_signal = Signal.sell ∧ short_signal = Signal.sell then Signal.sell
        else prev_state
  | Signal.neutral => prev_state

/-- The event-emission rule of `ThreeScreenStrategy.execute`
(`strategies.py` lines 120-129): when `new_state != prev_state` the state is
stored and, when the new state is `buy` or `sell`, a signal-change entry
whose `type` is the new state is appended.  Returns the `type` of the
emitted event, if any. -/
def emittedEvent (long_signal mid_signal short_signal prev_state : Signal) : Option Signal :=
  let new_state := nextState long_signal mid_signal short_signal prev_state
  if new_state ≠ prev_state then
    if new_state = Signal.buy ∨ new_state = Signal.sell then some new_state else none
  else none

/-- A tracked symbol's state across a sequence of `execute` invocations:
each invocation contributes one `(long, mid, short)` vote triple and updates
the stored state with `nextState` (each symbol's dictionary entry is read and
written independently of the other symbols). -/
def runSignals (votes : List (Signal × Signal × Signal)) (init : Signal) : Signal :=
  votes.foldl (fun st v => nextState v.1 v.2.1 v.2.2 st) init

/-- `SymbolInfo` as produced by the market-data provider
(`app/utils/symbol_info.py`): symbol string, display name, exchange. -/
structure SymbolInfo where
  symbol : String
  name : String
  exchange : String
deriving DecidableEq

/-- The tracked symbol set built by `ThreeScreenStrategy.__init__`
(`strategies.py` lines 72-75): the full universe filtered by exchange when a
filter is supplied, the full universe otherwise. -/
def trackedSymbols (full_symbols_list : List SymbolInfo) (exchange : Option String) :
    List SymbolInfo :=
  match exchange with
  | some ex => full_symbols_list.filter (fun s => decide (s.exchange = ex))
  | none => full_symbols_list

/-- The initial state dictionary built by `ThreeScreenStrategy.__init__`
(`strategies.py` line 77):
`{symbol.symbol: 'neutral' for symbol in full_symbols_list}` — note that it
ranges over the FULL symbol list, not the filtered `symbols_list`. -/
def initialState (full_symbols_list : List SymbolInfo) : List (String × Signal) :=
  full_symbols_list.map (fun s => (s.symbol, Signal.neutral))

/-- A signal-change record as appended by `ThreeScreenStrategy.execute`
(details string and market-data snapshot omitted; no claim inspects them). -/
structure SignalEvent where
  symbol : SymbolInfo
  type : Signal
deriving DecidableEq

/-- `StrategyManager.run_strategies` (`strategy_manager.py` lines 22-45) as
implemented: the loop `for strategy in self.strategies.items()` binds each
`(name, instance)` pair and calls `strategy.execute()` on the pair, which
has no `execute` attribute — every iteration raises `AttributeError`, so any
nonempty registry fails; an empty registry yields no signals and the
notifier is not invoked (the returned flag records whether
`notifier.send_notification` was called). -/
def run_strategies (registry : List (String × (Unit → List SignalEvent))) :
    Except String (List SignalEvent × Bool) :=
  match registry with
  | [] => Except.ok ([], false)
  | _ :: _ =>
      Except.error "AttributeError: a (name, strategy) tuple has no attribute execute"

/-- An arithmetic price series `a, a + d, a + 2d, ...` of the given length:
the general form of a strictly monotonically increasing series with constant
positive step when `d > 0`. -/
def arithSeries (a d : ℚ) : ℕ → List ℚ
  | 0 => []
  | n + 1 => a :: arithSeries (a + d) d n

/-- A two-symbol universe spanning two exchanges, as in the strategy test
fixture with an added Alpaca symbol. -/
def c3Universe : List SymbolInfo :=
  [⟨"BTCUSDT", "Bitcoin", "Binance"⟩, ⟨"AAPL", "Apple", "Alpaca"⟩]

/-- A trivial registered strategy value (never reached by the manager's
loop). -/
def demoStrategy : Unit → List SignalEvent := fun _ => []

/-! Helper lemmas shared by several claims. -/

theorem calculate_sma_length (period : ℕ) (closing_prices : List ℚ) :
    (calculate_sma period closing_prices).length = closing_prices.length - period := by
  simp [calculate_sma]

theorem nextState_ne_neutral (l m s p : Signal) (h : p ≠ Signal.neutral) :
    nextState l m s p ≠ Signal.neutral := by
  cases l <;> cases m <;> cases s <;> cases p <;> revert h <;> decide

theorem runSignals_ne_neutral (votes : List (Signal × Signal × Signal)) (p : Signal)
    (h : p ≠ Signal.neutral) : runSignals votes p ≠ Signal.neutral := by
  induction votes generalizing p with
  | nil => exact h
  | cons v vs ih => exact ih _ (nextState_ne_neutral _ _ _ _ h)

/-! Claim theorems. -/

/-- C1: per-invocation state-transition rule of `ThreeScreenStrategy.execute`:
with `long = buy` and `prev = buy`, the new state is `sell` exactly when
`mid = sell` and `short = sell`; with `long = buy` and `prev ≠ buy`, the new
state is `buy` exactly when `mid = buy` and `short = buy`; with `long = sell`
the two mirror cases hold; with `long = neutral` the state is held; and in
every other combination the state is held unchanged (any actual change is
one of the four listed transitions). -/
theorem C1_transition_rule (l m s p : Signal) :
    (l = Signal.buy → p = Signal.buy →
      (nextState l m s p = Signal.sell ↔ m = Signal.sell ∧ s = Signal.sell)) ∧
    (l = Signal.buy → p ≠ Signal.buy →
      (nextState l m s p = Signal.buy ↔ m = Signal.buy ∧ s = Signal.buy)) ∧
    (l = Signal.sell → p = Signal.sell →
      (nextState l m s p = Signal.buy ↔ m = Signal.buy ∧ s = Signal.buy)) ∧
    (l = Signal.sell → p ≠ Signal.sell →
      (nextState l m s p = Signal.sell ↔ m = Signal.sell ∧ s = Signal.sell)) ∧
    (l = Signal.neutral → nextState l m s p = p) ∧
    (nextState l m s p ≠ p →
      (l = Signal.buy ∧ ((p = Signal.buy ∧ m = Signal.sell ∧ s = Signal.sell) ∨
        (p ≠ Signal.buy ∧ m = Signal.buy ∧ s = Signal.buy))) ∨
      (l = Signal.sell ∧ ((p = Signal.sell ∧ m = Signal.buy ∧ s = Signal.buy) ∨
        (p ≠ Signal.sell ∧ m = Signal.sell ∧ s = Signal.sell)))) := by
  refine ⟨?_, ?_, ?_, ?_, ?_, ?_⟩ <;>
    (cases l <;> cases m <;> cases s <;> cases p <;> decide)

/-- C1 witness: the regime-licensed close transition fires at a concrete
input (`long = buy`, `prev = buy`, `mid = sell`, `short = sell`). -/
theorem C1_transition_rule_witness :
    nextState Signal.buy Signal.sell Signal.sell Signal.buy = Signal.sell :=
  ((C1_transition_rule Signal.buy Signal.sell Signal.sell Signal.buy).1 rfl rfl).mpr
    ⟨rfl, rfl⟩

/-- C2: a tracked symbol's state is always one of neutral/buy/sell, an
actual transition never targets `neutral` (so a symbol that has left
`neutral` never returns to it across any sequence of invocations), and an
event is emitted exactly when the invocation changed the stored state, the
emitted type being the new state, which is always `buy` or `sell`. -/
theorem C2_state_event_invariants :
    (∀ votes : List (Signal × Signal × Signal),
      runSignals votes Signal.neutral = Signal.neutral ∨
      runSignals votes Signal.neutral = Signal.buy ∨
      runSignals votes Signal.neutral = Signal.sell) ∧
    (∀ l m s p : Signal, nextState l m s p ≠ p → nextState l m s p ≠ Signal.neutral) ∧
    (∀ (votes : List (Signal × Signal × Signal)) (p : Signal),
      p ≠ Signal.neutral → runSignals votes p ≠ Signal.neutral) ∧
    (∀ l m s p : Signal, (emittedEvent l m s p).isSome = true ↔ nextState l m s p ≠ p) ∧
    (∀ l m s p e : Signal, emittedEvent l m s p = some e →
      e = nextState l m s p ∧ (e = Signal.buy ∨ e = Signal.sell)) := by
  refine ⟨?_, ?_, ?_, ?_, ?_⟩
  · intro votes
    rcases hv : runSignals votes Signal.neutral with _ | _ | _ <;> simp
  · intro l m s p
    cases l <;> cases m <;> cases s <;> cases p <;> decide
  · exact runSignals_ne_neutral
  · intro l m s p
    cases l <;> cases m <;> cases s <;> cases p <;> decide
  · intro l m s p e h
    revert h
    cases l <;> cases m <;> cases s <;> cases p <;> cases e <;> decide

/-- C2 witness: the invariants applied at concrete inputs, discharging each
hypothesis: a non-neutral state stays non-neutral under one transition and
under a one-invocation run, and the concrete opening transition
neutral → buy emits an event of the new (buy) type. -/
theorem C2_witness :
    nextState Signal.buy Signal.buy Signal.buy Signal.sell ≠ Signal.neutral ∧
    runSignals [(Signal.buy, Signal.buy, Signal.buy)] Signal.sell ≠ Signal.neutral ∧
    (Signal.buy = nextState Signal.buy Signal.buy Signal.buy Signal.neutral ∧
      (Signal.buy = Signal.buy ∨ Signal.buy = Signal.sell)) :=
  ⟨nextState_ne_neutral Signal.buy Signal.buy Signal.buy Signal.sell (by decide),
   C2_state_event_invariants.2.2.1 [(Signal.buy, Signal.buy, Signal.buy)] Signal.sell
     (by decide),
   C2_state_event_invariants.2.2.2.2 Signal.buy Signal.buy Signal.buy Signal.neutral
     Signal.buy (by decide)⟩

/-- C3 counterexample: with the exchange filter "Binance", the state map
built by `__init__` keys every symbol of the FULL universe (it ranges over
`full_symbols_list`), so its key set is NOT the filtered tracked symbol
set. -/
theorem C3_counterexample :
    (initialState c3Universe).map Prod.fst ≠
      (trackedSymbols c3Universe (some "Binance")).map SymbolInfo.symbol := by
  simp [initialState, trackedSymbols, c3Universe]

/-- C3 amended: the state map has exactly one entry per symbol of the FULL
instrument universe (filter or not), every entry is `neutral`, every tracked
symbol's key is present in the map, and when no exchange filter is given the
key set does equal the tracked symbol set. -/
theorem C3_initial_state (full : List SymbolInfo) (exchange : Option String) :
    (initialState full).map Prod.fst = full.map SymbolInfo.symbol ∧
    (∀ pr ∈ initialState full, pr.2 = Signal.neutral) ∧
    (∀ s ∈ trackedSymbols full exchange, s.symbol ∈ (initialState full).map Prod.fst) ∧
    (exchange = none →
      (initialState full).map Prod.fst = (trackedSymbols full exchange).map SymbolInfo.symbol) := by
  have h1 : (initialState full).map Prod.fst = full.map SymbolInfo.symbol := by
    simp only [initialState, List.map_map]
    rfl
  refine ⟨h1, ?_, ?_, ?_⟩
  · intro pr hpr
    simp only [initialState, List.mem_map] at hpr
    obtain ⟨sym, -, rfl⟩ := hpr
    rfl
  · intro s hs
    have hfull : s ∈ full := by
      cases exchange with
      | none => exact hs
      | some ex => exact (List.mem_filter.1 hs).1
    rw [h1]
    exact List.mem_map.2 ⟨s, hfull, rfl⟩
  · intro he
    subst he
    simpa [trackedSymbols] using h1

/-- C3 witness: the amended statement applied to the two-exchange universe
with no filter, discharging the membership and no-filter hypotheses. -/
theorem C3_initial_state_witness :
    ((⟨"BTCUSDT", "Bitcoin", "Binance"⟩ : SymbolInfo).symbol ∈
      (initialState c3Universe).map Prod.fst) ∧
    ((initialState c3Universe).map Prod.fst =
      (trackedSymbols c3Universe none).map SymbolInfo.symbol) ∧
    (("BTCUSDT", Signal.neutral).2 = Signal.neutral) :=
  ⟨(C3_initial_state c3Universe none).2.2.1 ⟨"BTCUSDT", "Bitcoin", "Binance"⟩
     (List.mem_cons_self _ _),
   (C3_initial_state c3Universe none).2.2.2 rfl,
   (C3_initial_state c3Universe none).2.1 ("BTCUSDT", Signal.neutral)
     (List.mem_cons_self _ _)⟩

/-- C9: evaluation of `StrategyManager.run_strategies` as implemented: an
empty registry yields no signals and does not invoke the notifier, while any
nonempty registry fails (the loop calls `execute` on the `(name, strategy)`
dict-item tuple), so no registered strategy value is ever executed. -/
theorem C9_run_strategies_behavior :
    run_strategies [] = Except.ok ([], false) ∧
    (run_strategies [("three_screen", demoStrategy)]).isOk = false :=
  ⟨rfl, rfl⟩

/-! Indicator-engine helper lemmas. -/

theorem calculate_sma_getElem? (period : ℕ) (P : List ℚ) (i : ℕ)
    (h : i < P.length - period) :
    (calculate_sma period P)[i]? = some (((P.drop i).take period).sum / (period : ℚ)) := by
  simp [calculate_sma, List.getElem?_range' _ _ h, Nat.add_sub_cancel_left]

theorem calculate_ema_def (period : ℕ) (P : List ℚ) :
    calculate_ema period P =
      List.replicate (period - 1) none ++
        some ((P.take period).sum / (period : ℚ)) ::
          (emaLoop (2 / ((period : ℚ) + 1)) ((P.take period).sum / (period : ℚ))
            (P.drop period)).map some := rfl

theorem emaLoop_length (m prev : ℚ) (xs : List ℚ) :
    (emaLoop m prev xs).length = xs.length := by
  induction xs generalizing prev with
  | nil => rfl
  | cons x t ih => simp [emaLoop, ih]

theorem emaLoop_recurrence (m : ℚ) (xs : List ℚ) :
    ∀ (prev : ℚ) (j : ℕ), j < xs.length →
    ∃ x pv, xs[j]? = some x ∧ (prev :: emaLoop m prev xs)[j]? = some pv ∧
      (emaLoop m prev xs)[j]? = some ((x - pv) * m + pv) := by
  induction xs with
  | nil =>
    intro prev j hj
    simp at hj
  | cons x t ih =>
    intro prev j hj
    cases j with
    | zero => exact ⟨x, prev, by simp, by simp, by simp [emaLoop]⟩
    | succ j =>
      have hj' : j < t.length := by simpa using hj
      obtain ⟨y, pv, h1, h2, h3⟩ := ih ((x - prev) * m + prev) j hj'
      refine ⟨y, pv, by simpa using h1, ?_, ?_⟩
      · rw [List.getElem?_cons_succ]
        exact h2
      · rw [show emaLoop m prev (x :: t) =
          ((x - prev) * m + prev) :: emaLoop m ((x - prev) * m + prev) t from rfl,
          List.getElem?_cons_succ]
        exact h3

theorem priceChanges_cons_cons (x y : ℚ) (t : List ℚ) :
    priceChanges (x :: y :: t) = (y - x) :: priceChanges (y :: t) := rfl

theorem priceChanges_arithSeries (d : ℚ) :
    ∀ (n : ℕ) (a : ℚ), priceChanges (arithSeries a d (n + 1)) = List.replicate n d := by
  intro n
  induction n with
  | zero =>
    intro a
    rfl
  | succ k ih =>
    intro a
    rw [show arithSeries a d (k + 2) = a :: (a + d) :: arithSeries (a + d + d) d k from rfl,
      priceChanges_cons_cons,
      show (a + d) :: arithSeries (a + d + d) d k = arithSeries (a + d) d (k + 1) from rfl,
      ih (a + d), show a + d - a = d by ring, List.replicate_succ]

theorem rsiValue_zero_loss (ag : ℚ) : rsiValue ag 0 = 100 := by
  simp [rsiValue]

theorem rsiSmooth_zero_loss (period : ℕ) (d : ℚ) :
    ∀ (k : ℕ) (ag : ℚ),
      rsiSmooth period ag 0 (List.replicate k (d, 0)) = List.replicate k 100 := by
  intro k
  induction k with
  | zero =>
    intro ag
    rfl
  | succ j ih =>
    intro ag
    rw [List.replicate_succ, rsiSmooth]
    simp only []
    rw [show ((0 : ℚ) * ((period : ℚ) - 1) + 0) / (period : ℚ) = 0 by ring,
      rsiValue_zero_loss, ih, List.replicate_succ]

theorem getLast?_cons_replicate (x : Option ℚ) (k : ℕ) :
    (x :: List.replicate k x).getLast? = some x := by
  induction k with
  | zero => rfl
  | succ j ih =>
    rw [List.replicate_succ, List.getLast?_cons_cons]
    exact ih

theorem calculate_rsi_arith (period : ℕ) (a d : ℚ) (n : ℕ) (hd : 0 < d) :
    calculate_rsi period (arithSeries a d (n + 1)) =
      List.replicate period none ++
        some 100 :: List.replicate (n - period) (some 100) := by
  rw [calculate_rsi]
  simp only [priceChanges_arithSeries d n a, List.map_replicate, max_eq_left hd.le,
    min_eq_right hd.le, abs_zero, List.take_replicate, List.sum_replicate, smul_zero,
    zero_div, List.drop_replicate, List.zip_replicate, min_self]
  rw [rsiSmooth_zero_loss period d (n - period) _, rsiValue_zero_loss, List.map_replicate]

/-! Indicator claim theorems. -/

/-- C4 counterexample: the claimed window formula (mean of `P[i+1 .. i+p]`,
one position later than the conventional window) fails at `p = 3`,
`P = [10, 20, 30, 40, 50]`: the implementation's element 0 is
`(10 + 20 + 30) / 3 = 20`, not the claimed `(20 + 30 + 40) / 3 = 30`. -/
theorem C4_counterexample :
    (calculate_sma 3 [10, 20, 30, 40, 50])[0]? ≠
      some (((([10, 20, 30, 40, 50] : List ℚ).drop (0 + 1)).take 3).sum / (3 : ℚ)) := by
  norm_num [calculate_sma, List.range']

/-- C4 amended: `SMA(p, P)` has length `n - p` (so it is empty when
`p ≥ n`, and in particular when `len(P) = p`, and the final window — the one
ending at the last element — is never emitted), and element `i` is the mean
of the CONVENTIONAL window `P[i .. i+p-1]`, not of a window shifted one
position later. -/
theorem C4_sma_shape (period : ℕ) (P : List ℚ) (hp : 1 ≤ period) :
    (calculate_sma period P).length = P.length - period ∧
    (P.length ≤ period → calculate_sma period P = []) ∧
    (∀ i, i < P.length - period →
      (calculate_sma period P)[i]? =
        some (((P.drop i).take period).sum / (period : ℚ))) := by
  refine ⟨calculate_sma_length period P, ?_, ?_⟩
  · intro hle
    have h0 : (calculate_sma period P).length = 0 := by
      rw [calculate_sma_length]
      omega
    exact List.length_eq_zero.1 h0
  · intro i hi
    exact calculate_sma_getElem? period P i hi

/-- C4 witness: the amended statement at `p = 3, P = [10, 20, 30, 40, 50]`
(length and window of element 0) and at `p = 4, P = [1, 2, 3, 4]`
(`len(P) = p` gives the empty output). -/
theorem C4_sma_shape_witness :
    (calculate_sma 3 [10, 20, 30, 40, 50]).length =
      ([10, 20, 30, 40, 50] : List ℚ).length - 3 ∧
    calculate_sma 4 [1, 2, 3, 4] = [] ∧
    (calculate_sma 3 [10, 20, 30, 40, 50])[0]? =
      some (((([10, 20, 30, 40, 50] : List ℚ).drop 0).take 3).sum / (3 : ℚ)) :=
  ⟨(C4_sma_shape 3 [10, 20, 30, 40, 50] (by norm_num)).1,
   (C4_sma_shape 4 [1, 2, 3, 4] (by norm_num)).2.1 (by simp),
   (C4_sma_shape 3 [10, 20, 30, 40, 50] (by norm_num)).2.2 0 (by simp)⟩

/-- C5: `EMA(p, P)` has `p - 1` leading nulls, position `p - 1` carries the
seed `sum(P[0:p]) / p` (the arithmetic mean of the `p`-element window
`P[0:p]`; the same `sum / p` value is produced even when fewer than `p`
elements exist, matching the documented leniency), every position
`i ≥ p` within the series satisfies
`EMA[i] = (P[i] - EMA[i-1]) * (2 / (p + 1)) + EMA[i-1]`, and when
`len(P) ≥ p` the output has the same length as `P`. -/
theorem C5_ema_shape (period : ℕ) (P : List ℚ) (hp : 1 ≤ period) :
    (∀ i, i < period - 1 → (calculate_ema period P)[i]? = some none) ∧
    (calculate_ema period P)[period - 1]? =
      some (some ((P.take period).sum / (period : ℚ))) ∧
    (∀ i, period ≤ i → i < P.length →
      ∃ x pv, P[i]? = some x ∧
        (calculate_ema period P)[i - 1]? = some (some pv) ∧
        (calculate_ema period P)[i]? =
          some (some ((x - pv) * (2 / ((period : ℚ) + 1)) + pv))) ∧
    (period ≤ P.length → (calculate_ema period P).length = P.length) := by
  refine ⟨?_, ?_, ?_, ?_⟩
  · intro i hi
    rw [calculate_ema_def, List.getElem?_append_left (by simpa using hi)]
    simp [List.getElem?_replicate, hi]
  · rw [calculate_ema_def, List.getElem?_append_right (by simp)]
    simp
  · intro i hpi hilt
    have hj : i - period < (P.drop period).length := by
      simp [List.length_drop]
      omega
    obtain ⟨x, pv, h1, h2, h3⟩ :=
      emaLoop_recurrence (2 / ((period : ℚ) + 1)) (P.drop period)
        ((P.take period).sum / (period : ℚ)) (i - period) hj
    refine ⟨x, pv, ?_, ?_, ?_⟩
    · rw [← h1, List.getElem?_drop]
      congr 1
      omega
    · rw [calculate_ema_def, List.getElem?_append_right (by simp; omega)]
      have hidx : i - 1 - (List.replicate (period - 1) (none : Option ℚ)).length =
          i - period := by
        simp
        omega
      rw [hidx,
        show (some ((P.take period).sum / (period : ℚ)) ::
            (emaLoop (2 / ((period : ℚ) + 1)) ((P.take period).sum / (period : ℚ))
              (P.drop period)).map some) =
          (((P.take period).sum / (period : ℚ)) ::
            emaLoop (2 / ((period : ℚ) + 1)) ((P.take period).sum / (period : ℚ))
              (P.drop period)).map some from rfl,
        List.getElem?_map, h2]
      rfl
    · rw [calculate_ema_def, List.getElem?_append_right (by simp; omega)]
      have hidx : i - (List.replicate (period - 1) (none : Option ℚ)).length =
          (i - period) + 1 := by
        simp
        omega
      rw [hidx, List.getElem?_cons_succ, List.getElem?_map, h3]
      rfl
  · intro hple
    rw [calculate_ema_def]
    simp [emaLoop_length]
    omega

/-- C5 witness: the EMA shape at `p = 2, P = [1, 3, 5]`, discharging every
hypothesis at concrete indices (`seed = (1 + 3) / 2 = 2`, recurrence at
`i = 2`, and full output length). -/
theorem C5_ema_shape_witness :
    (calculate_ema 2 [1, 3, 5])[0]? = some none ∧
    (calculate_ema 2 [1, 3, 5])[2 - 1]? =
      some (some ((([1, 3, 5] : List ℚ).take 2).sum / (2 : ℚ))) ∧
    (∃ x pv, ([1, 3, 5] : List ℚ)[2]? = some x ∧
      (calculate_ema 2 [1, 3, 5])[2 - 1]? = some (some pv) ∧
      (calculate_ema 2 [1, 3, 5])[2]? =
        some (some ((x - pv) * (2 / ((2 : ℚ) + 1)) + pv))) ∧
    (calculate_ema 2 [1, 3, 5]).length = ([1, 3, 5] : List ℚ).length :=
  ⟨(C5_ema_shape 2 [1, 3, 5] (by norm_num)).1 0 (by norm_num),
   (C5_ema_shape 2 [1, 3, 5] (by norm_num)).2.1,
   (C5_ema_shape 2 [1, 3, 5] (by norm_num)).2.2.1 2 (by norm_num) (by simp),
   (C5_ema_shape 2 [1, 3, 5] (by norm_num)).2.2.2 (by simp)⟩

/-- C6: on a strictly monotonically increasing series with constant positive
step (`arithSeries a d n` with `d > 0`) of length at least `period + 1`, the
last RSI value is exactly `100` (every per-step loss is zero, so the
smoothed average loss stays zero and the all-gains branch yields 100), and
the output has exactly `period` leading nulls (positions `< period` are
null, position `period` is not — it already carries the value 100). -/
theorem C6_rsi_all_gains (period : ℕ) (a d : ℚ) (n : ℕ) (hp : 1 ≤ period) (hd : 0 < d)
    (hn : period + 1 ≤ n) :
    (calculate_rsi period (arithSeries a d n)).getLast? = some (some 100) ∧
    (∀ i, i < period → (calculate_rsi period (arithSeries a d n))[i]? = some none) ∧
    (calculate_rsi period (arithSeries a d n))[period]? = some (some 100) := by
  obtain ⟨m, rfl⟩ : ∃ m, n = m + 1 := ⟨n - 1, by omega⟩
  have key := calculate_rsi_arith period a d m hd
  refine ⟨?_, ?_, ?_⟩
  · rw [key, List.getLast?_append_of_ne_nil _ (by simp), getLast?_cons_replicate]
  · intro i hi
    rw [key, List.getElem?_append_left (by simpa using hi)]
    simp [List.getElem?_replicate, hi]
  · rw [key, List.getElem?_append_right (by simp)]
    simp

/-- C6 witness: `p = 1`, series `0, 1` (`a = 0, d = 1, n = 2`): the RSI is
`[null, 100]`, so the last element is 100, position 0 is null and position 1
is 100. -/
theorem C6_rsi_all_gains_witness :
    (calculate_rsi 1 (arithSeries 0 1 2)).getLast? = some (some 100) ∧
    (calculate_rsi 1 (arithSeries 0 1 2))[0]? = some none ∧
    (calculate_rsi 1 (arithSeries 0 1 2))[1]? = some (some 100) :=
  ⟨(C6_rsi_all_gains 1 0 1 2 (by norm_num) (by norm_num) (by norm_num)).1,
   (C6_rsi_all_gains 1 0 1 2 (by norm_num) (by norm_num) (by norm_num)).2.1 0
     (by norm_num),
   (C6_rsi_all_gains 1 0 1 2 (by norm_num) (by norm_num) (by norm_num)).2.2⟩

/-- C7: the MACD of the implementation raises for every input (its body
hands `calculate_ema` the price list as the period and subtracts whole
Python lists), so it never returns the claimed element-wise
`EMA(short) - EMA(long)` triple; the claim describes the documented intent,
which the code contradicts. -/
theorem C7_macd_always_raises (P : List ℚ) (sp lp gp : ℕ) :
    (calculate_macd P sp lp gp).isOk = false := rfl

/-- C8: at the failing input: BollingerBands with fewer than `period` closes
does fail with the insufficient-data error (first claim conjunct, true), but
MACD — claimed to return rather than raise for every series — also fails on
`[100, 101, 102]` (and every other input), contradicting the claim's
"every other indicator function returns rather than raises". -/
theorem C8_eval :
    (calculate_bollinger_bands (fun q => q) 20 2 [100, 101, 102]).isOk = false ∧
    (calculate_macd [100, 101, 102] 12 26 9).isOk = false := by
  constructor
  · simp [calculate_bollinger_bands, Except.isOk, Except.toBool]
  · rfl

/-- C10: BollingerBands raises the insufficient-data error whenever
`period ≤ len(P) < 2 * period` — the internally computed SMA has length
`len(P) - period < period`, tripping the second length guard — and returns
the band pair whenever `len(P) ≥ 2 * period`. -/
theorem C10_bollinger_guards (sqrtFn : ℚ → ℚ) (period : ℕ) (mult : ℚ) (P : List ℚ)
    (hp : 1 ≤ period) :
    (period ≤ P.length → P.length < 2 * period →
      calculate_bollinger_bands sqrtFn period mult P =
        Except.error "computed SMA is too short for the requested period") ∧
    (2 * period ≤ P.length →
      (calculate_bollinger_bands sqrtFn period mult P).isOk = true) := by
  constructor
  · intro h1 h2
    have hA : ¬ (P.length < period) := by omega
    have hB : (calculate_sma period P).length < period := by
      rw [calculate_sma_length]
      omega
    simp [calculate_bollinger_bands, hA, hB]
  · intro h
    have hA : ¬ (P.length < period) := by omega
    have hB : ¬ ((calculate_sma period P).length < period) := by
      rw [calculate_sma_length]
      omega
    simp [calculate_bollinger_bands, hA, hB, Except.isOk, Except.toBool]

/-- C10 witness: with `p = 2`, the three-element series trips the second
guard and the four-element series returns bands. -/
theorem C10_bollinger_guards_witness :
    calculate_bollinger_bands (fun q => q) 2 2 [1, 2, 3] =
      Except.error "computed SMA is too short for the requested period" ∧
    (calculate_bollinger_bands (fun q => q) 2 2 [1, 2, 3, 4]).isOk = true :=
  ⟨(C10_bollinger_guards (fun q => q) 2 2 [1, 2, 3] (by norm_num)).1 (by simp) (by simp),
   (C10_bollinger_guards (fun q => q) 2 2 [1, 2, 3, 4] (by norm_num)).2 (by simp)⟩

end TradingWithPy
